import Mathlib

/-!
Verification development for the LMQA backend (Flask + mem0 memory layer).

The definitions below are a shallow embedding of the Python sources:
  * `backend/memory/manager.py`   — `MemoryManager` (client cache, namespace
    routing, 404 retry on `add`);
  * `backend/app/services/agent_service.py` — `AgentService` (tool executor,
    `delete_memory` graph-reset logic, the `chat_agent` LLM/tool loop);
  * `backend/app/api/chat.py`     — the message endpoints (history assembly,
    the SSE streaming pipeline, conversation metadata updates).

External effects (the mem0 store, the LLM, the SQLite database) are modelled
as explicit state or as oracle functions supplied as arguments; exceptions in
the Python code are modelled with `Except`.
-/

namespace LMQA

/-! ## String helpers -/

/-- Does `sub` occur as a contiguous sublist of `hay`?  Used to model the
Python substring test `"404" in str(e)`. -/
def listContains (hay sub : List Char) : Bool :=
  (List.range (hay.length + 1)).any (fun i => sub.isPrefixOf (hay.drop i))

/-- Python `sub in hay` on strings. -/
def strContains (hay sub : String) : Bool :=
  listContains hay.data sub.data

/-- The retry trigger of `MemoryManager.add_memory`:
`"404" in str(e) or "Not found" in str(e)`. -/
def isNotFoundError (e : String) : Bool :=
  strContains e "404" || strContains e "Not found"

/-- Python truthiness of an optional string (`None` and `""` are falsy). -/
def truthyOpt : Option String → Bool
  | none => false
  | some s => !s.isEmpty

/-! ## Memory manager (`backend/memory/manager.py`) -/

/-- The `MemoryManager._clients` cache: a map from settings fingerprint
(`_get_config_hash`) to a client.  Clients are identified by the order in
which `Memory.from_config` built them (`nextId` is the next fresh id). -/
structure MMState where
  clients : List (String × Nat)
  nextId : Nat
deriving DecidableEq, Repr

/-- Cache lookup (`config_hash in self._clients`). -/
def lookupClient (st : MMState) (h : String) : Option Nat :=
  (st.clients.find? (fun p => p.1 == h)).map (fun p => p.2)

/-- `MemoryManager._get_client`: return the cached client for the fingerprint
or build a fresh one and cache it. -/
def get_client (st : MMState) (h : String) : MMState × Nat :=
  match lookupClient st h with
  | some c => (st, c)
  | none => (⟨(h, st.nextId) :: st.clients, st.nextId + 1⟩, st.nextId)

/-- `del self._clients[config_hash]` (a no-op when the key is absent). -/
def evictClient (st : MMState) (h : String) : MMState :=
  ⟨st.clients.filter (fun p => !(p.1 == h)), st.nextId⟩

/-- `MemoryManager._resolve_ids`: `local` scope maps to the per-conversation
namespace `user_id + "_conv_" + run_id` and requires a truthy `run_id`;
every other scope maps to the plain `user_id` namespace.  The second
component is the `target_run_id`, which the code always leaves `None`. -/
def resolve_ids (user_id : String) (run_id : Option String) (scope : String) :
    Except String (String × Option String) :=
  if scope = "local" then
    if truthyOpt run_id then
      Except.ok (user_id ++ "_conv_" ++ run_id.getD "", none)
    else
      Except.error "Local memory requires a valid run_id"
  else
    Except.ok (user_id, none)

/-- The keyword arguments forwarded to `client.add` (besides the messages and
metadata): `user_id` always, `run_id` only when truthy. -/
structure AddParams where
  user_id : String
  run_id : Option String
deriving DecidableEq, Repr

/-- The keyword arguments forwarded to `client.search`. -/
structure SearchParams where
  user_id : String
  run_id : Option String
  limit : Nat
deriving DecidableEq, Repr

/-- `MemoryManager.add_memory`.  `st` is the client cache, `h` the settings
fingerprint, `behavior` the underlying `client.add` (indexed by the client id
and the forwarded parameters; `Except.error` models a raised exception).
Returns the new cache, the list of store calls actually issued, and the
result.  Faithful to the source: the client is fetched before
`_resolve_ids`; a `404` / `Not found` error evicts the cached client,
rebuilds it and retries exactly once; any other error propagates. -/
def add_memory (st : MMState) (h : String)
    (behavior : Nat → AddParams → Except String Nat)
    (u : String) (r : Option String) (scope : String) :
    MMState × List AddParams × Except String Nat :=
  let stc := get_client st h
  match resolve_ids u r scope with
  | Except.error e => (stc.1, [], Except.error e)
  | Except.ok tu =>
    let params : AddParams := ⟨tu.1, if truthyOpt tu.2 then tu.2 else none⟩
    match behavior stc.2 params with
    | Except.ok v => (stc.1, [params], Except.ok v)
    | Except.error e =>
      if isNotFoundError e then
        let stc2 := get_client (evictClient stc.1 h) h
        (stc2.1, [params, params], behavior stc2.2 params)
      else
        (stc.1, [params], Except.error e)

/-- `MemoryManager.search_memories`.  The underlying `client.search` error is
swallowed and an empty result list is returned; a `_resolve_ids` failure is
raised before any search reaches the store. -/
def search_memories (st : MMState) (h : String)
    (behavior : Nat → SearchParams → Except String (List String))
    (u : String) (r : Option String) (scope : String) (limit : Nat) :
    MMState × List SearchParams × Except String (List String) :=
  let stc := get_client st h
  match resolve_ids u r scope with
  | Except.error e => (stc.1, [], Except.error e)
  | Except.ok tu =>
    let params : SearchParams := ⟨tu.1, if truthyOpt tu.2 then tu.2 else none, limit⟩
    match behavior stc.2 params with
    | Except.ok res => (stc.1, [params], Except.ok res)
    | Except.error _ => (stc.1, [params], Except.ok [])

/-! ## Agent service (`backend/app/services/agent_service.py`) -/

/-- A raw item of a mem0 search result list: either a dict (whose `id` key is
always present in the parsed vector, possibly with value `None`) or a bare
string (which yields a vector without an `id` key). -/
inductive RawItem where
  | dict (id : Option String) (memory : String)
  | str (s : String)
deriving DecidableEq, Repr

/-- A raw graph relation: the optional `source`, `relationship` and
`destination` fields. -/
structure RawRel where
  source : Option String
  relationship : Option String
  destination : Option String
deriving DecidableEq, Repr

/-- A raw mem0 search result (`results` plus `relations`). -/
structure RawSearch where
  results : List RawItem
  relations : List RawRel
deriving DecidableEq, Repr

/-- A parsed vector entry of `parse_search_result`: `hasId` records whether
the `id` key is present (dict items), `id` its value (`none` = Python
`None`). -/
structure VecItem where
  hasId : Bool
  id : Option String
  content : String
deriving DecidableEq, Repr

/-- The vector half of `parse_search_result`. -/
def parseVec : RawItem → VecItem
  | RawItem.dict i m => ⟨true, i, m⟩
  | RawItem.str s => ⟨false, none, s⟩

/-- The relation half of `parse_search_result`: keep a relation only when all
three fields are truthy, rendered as `src --[rel]--> dst`. -/
def parseRels (rels : List RawRel) : List String :=
  rels.filterMap (fun rel =>
    if truthyOpt rel.source && truthyOpt rel.relationship && truthyOpt rel.destination then
      some (rel.source.getD "" ++ " --[" ++ rel.relationship.getD "" ++ "]--> "
        ++ rel.destination.getD "")
    else none)

/-- A deletion candidate assembled by the `delete_memory` branch of
`_execute_tool`:`id = some "graph_only"` marks a graph residue entry, `none`
a dict item whose `id` value was `None`. -/
structure Candidate where
  id : Option String
  content : String
  scope : String
deriving DecidableEq, Repr

/-- Candidate assembly of the `delete_memory` branch: local vectors that
carry an `id` key, local graph residues, then the same for the global
search. -/
def build_candidates (localRaw globalRaw : RawSearch) : List Candidate :=
  ((localRaw.results.map parseVec).filterMap (fun v =>
      if v.hasId then some (⟨v.id, v.content, "局部"⟩ : Candidate) else none))
  ++ ((parseRels localRaw.relations).map (fun r =>
      (⟨some "graph_only", "[局部图谱残留] " ++ r, "局部"⟩ : Candidate)))
  ++ ((globalRaw.results.map parseVec).filterMap (fun v =>
      if v.hasId then some (⟨v.id, v.content, "全局"⟩ : Candidate) else none))
  ++ ((parseRels globalRaw.relations).map (fun r =>
      (⟨some "graph_only", "[全局图谱残留] " ++ r, "全局"⟩ : Candidate)))

/-- Phase C of the `delete_memory` branch: walk the reviewer ids, skip the
virtual `graph_only` id, and for each id matching a candidate issue a
physical delete.  Returns the ids actually deleted and the deleted
contents, in order. -/
def delete_phase (candidates : List Candidate) (ids : List String) :
    List String × List String :=
  ids.foldl (fun acc mem_id =>
    if mem_id = "graph_only" then acc
    else
      match candidates.find? (fun c => c.id == some mem_id) with
      | some target => (acc.1 ++ [mem_id], acc.2 ++ [target.content])
      | none => acc) ([], [])

/-- An `add_memory` call issued by the agent service (the arguments the tool
executor passes to the memory manager). -/
structure AddCall where
  content : String
  user_id : String
  run_id : Option String
  scope : String
  metadata : List (String × String)
deriving DecidableEq, Repr

/-- The metadata attached to both graph-reset inserts. -/
def graph_reset_meta : List (String × String) :=
  [("type", "graph_reset"), ("source", "delete_tool")]

/-- Outcome of the `delete_memory` branch: the graph-reset `add_memory`
calls issued, the ids physically deleted, and the string returned to the
LLM. -/
structure DeleteOutcome where
  graphResetAdds : List AddCall
  deletedIds : List String
  reply : String
deriving DecidableEq, Repr

/-- The `delete_memory` branch of `AgentService._execute_tool`.  The two
searches are supplied as `localRaw` / `globalRaw`; `ids_to_delete` is the
reviewer output (`[]` when the reviewer call or the JSON parse failed);
`neutralize` is the neutralizing-statement LLM call (`Except.error` models a
raised exception, which the surrounding `try` swallows, skipping both
inserts).  The graph-reset condition is the source's
`if deleted_contents or (candidates and not ids_to_delete)`; the local
insert additionally requires a truthy `conversation_id`. -/
def delete_memory_tool (user_id : Nat) (conversation_id : Nat)
    (query_content : String) (localRaw globalRaw : RawSearch)
    (ids_to_delete : List String) (neutralize : Except String String) :
    DeleteOutcome :=
  let candidates := build_candidates localRaw globalRaw
  if candidates.isEmpty then
    ⟨[], [], "未找到与 \x27" ++ query_content ++ "\x27 相关的记忆。"⟩
  else
    let deleted := delete_phase candidates ids_to_delete
    let adds :=
      if !deleted.2.isEmpty || (!candidates.isEmpty && ids_to_delete.isEmpty) then
        match neutralize with
        | Except.error _ => []
        | Except.ok stmt =>
          (⟨stmt, toString user_id, none, "global", graph_reset_meta⟩ : AddCall) ::
          (if conversation_id ≠ 0 then
            [(⟨stmt, toString user_id, some (toString conversation_id), "local",
              graph_reset_meta⟩ : AddCall)]
          else [])
      else []
    ⟨adds, deleted.1, "已删除 " ++ toString deleted.2.length ++ " 条记忆，并同步更新了知识图谱状态。"⟩

/-- A tool call in an LLM response. -/
structure ToolCall where
  id : String
  name : String
  arguments : String
deriving DecidableEq, Repr

/-- An LLM chat-completion response: its tool calls (empty list models a
falsy `tool_calls`) and its text content. -/
structure LLMResponse where
  tool_calls : List ToolCall
  content : String
deriving DecidableEq, Repr

/-- A message on the agent's `messages` list. -/
structure AMsg where
  role : String
  content : String
  tool_call_id : Option String
  name : Option String
  tool_calls : List ToolCall
deriving DecidableEq, Repr

/-- The catch-all of `_execute_tool`: a raised exception becomes the string
`工具执行出错: …` handed back to the LLM instead of propagating. -/
def execute_tool_wrap (body : Except String String) : String :=
  match body with
  | Except.ok s => s
  | Except.error e => "工具执行出错: " ++ e

/-- The assistant message appended for a tool-calling response. -/
def assistant_of (resp : LLMResponse) : AMsg :=
  ⟨"assistant", resp.content, none, none, resp.tool_calls⟩

/-- The tool-result messages appended after the assistant message: one per
tool call, in the order of `resp.tool_calls` (the code iterates the
`futures` list, which was built in that order, so completion order of the
thread pool is irrelevant).  `tb` is the body of `_execute_tool` for the
given turn and tool call. -/
def tool_msgs_of (tb : Nat → ToolCall → Except String String) (turn : Nat)
    (resp : LLMResponse) : List AMsg :=
  resp.tool_calls.map (fun tc =>
    ⟨"tool", execute_tool_wrap (tb turn tc), some tc.id, some tc.name, []⟩)

/-- One tool-calling turn of `chat_agent`: append the assistant message and
the block of tool results. -/
def agent_turn (tb : Nat → ToolCall → Except String String) (turn : Nat)
    (resp : LLMResponse) (messages : List AMsg) : List AMsg :=
  messages ++ assistant_of resp :: tool_msgs_of tb turn resp

/-- The system prompt of `AgentService._build_system_prompt`. -/
def system_prompt : String :=
  "你是一个拥有双层记忆系统的智能助手。\n\n**记忆架构：**\n1. **局部记忆**：当前对话上下文。\n2. **全局记忆**：用户长期画像。\n\n**能力说明：**\n- 你的搜索结果包含 **文本 (Vector)** 和 **图谱 (Graph)**。请结合两者回答。\n- **图谱优先**：如果文本记录被删了，但图谱里还有关系，说明记忆可能未清除干净，请以图谱信息为辅助参考，但如果图谱显示\"Unknown\"则表示确实不知道。\n\n**操作策略：**\n1. **存储 (Add)**：全量存储。\n2. **修正 (Correction)**：信息变更时，直接用 `add` 覆盖。\n3. **删除 (Delete)**：用户明确要求删除时调用。\n4. **搜索 (Search)**：先搜局部，再搜全局。\n"

/-- The `while current_turn < max_turns` loop of `chat_agent`, with the
remaining fuel (`max_turns - current_turn`) as first recursion argument.
`llm` is the chat-completion dispatch, indexed by the turn number and the
current messages; `Except.error` models a raised exception.  Returns the
reply string together with the number of LLM calls that were dispatched. -/
def chat_loop (llm : Nat → List AMsg → Except String LLMResponse)
    (tb : Nat → ToolCall → Except String String) :
    Nat → Nat → List AMsg → String × Nat
  | 0, _, _ => ("思考超时。", 0)
  | Nat.succ fuel, turn, messages =>
    match llm turn messages with
    | Except.error e => ("处理错误: " ++ e, 1)
    | Except.ok resp =>
      if resp.tool_calls.isEmpty then (resp.content, 1)
      else
        ((chat_loop llm tb fuel (turn + 1) (agent_turn tb turn resp messages)).1,
         (chat_loop llm tb fuel (turn + 1) (agent_turn tb turn resp messages)).2 + 1)

/-- The initial messages list: system prompt, then the history, then the
fresh user message. -/
def init_messages (history : List AMsg) (user_message : String) : List AMsg :=
  (⟨"system", system_prompt, none, none, []⟩ : AMsg) ::
    (history ++ [(⟨"user", user_message, none, none, []⟩ : AMsg)])

/-- `AgentService.chat_agent`: bail out when no LLM client could be built,
otherwise run the tool loop with `max_turns = 5`. -/
def chat_agent (hasClient : Bool)
    (llm : Nat → List AMsg → Except String LLMResponse)
    (tb : Nat → ToolCall → Except String String)
    (history : List AMsg) (user_message : String) : String × Nat :=
  if hasClient then chat_loop llm tb 5 0 (init_messages history user_message)
  else ("请先配置模型 API Key。", 0)

/-! ## Chat endpoints (`backend/app/api/chat.py`) -/

/-- A persisted chat message (role, content), in chronological order. -/
structure ChatMsg where
  role : String
  content : String
deriving DecidableEq, Repr

/-- A row of the `conversations` table (timestamps as abstract ticks). -/
structure Conversation where
  title : String
  message_count : Nat
  last_message_at : Nat
  updated_at : Nat
deriving DecidableEq, Repr

/-- History assembly shared by `send_message` and `send_message_stream`:
`SELECT … ORDER BY created_at ASC LIMIT 20` over the conversation (which at
this point already contains the just-saved user message as its last entry),
then Python `[:-1]`. -/
def history_of (msgs1 : List ChatMsg) : List ChatMsg :=
  (msgs1.take 20).dropLast

/-- Modelled from the spec words for comparison: "the most recent (last) 20
messages of the conversation, excluding the just-saved user message, in
chronological order". -/
def spec_last20_history (msgs1 : List ChatMsg) : List ChatMsg :=
  let prev := msgs1.dropLast
  prev.drop (prev.length - 20)

/-- Python `final_content[i:i+10]` slicing loop: split a character list into
chunks of 10 (the last chunk may be shorter). -/
def chunk10 (l : List Char) : List (List Char) :=
  if l = [] then [] else l.take 10 :: chunk10 (l.drop 10)
termination_by l.length
decreasing_by
  rename_i h
  have hl : l.length ≠ 0 := fun hz => h (List.length_eq_zero.mp hz)
  simp only [List.length_drop]
  omega

/-- A server-sent event of the streaming endpoint. -/
inductive SSEvent where
  | user_message (content : String)
  | token (content : String)
  | done
  | errorEvent
deriving DecidableEq, Repr

/-- Result of a streaming turn: the emitted events, the conversation's
messages after persistence, and the updated conversation row. -/
structure StreamResult where
  events : List SSEvent
  msgs : List ChatMsg
  conv : Conversation
deriving DecidableEq, Repr

/-- The happy path of `send_message_stream.generate`: save the user message,
emit `user_message`, assemble the history, run the agent (`agent` is
`chat_agent` as an oracle of the history and the user message), emit the
final text in chunks of 10, save the assistant message, and bump
`message_count`, `last_message_at` and `updated_at`.  The streaming path
performs no title update. -/
def send_message_stream (conv : Conversation) (msgs : List ChatMsg)
    (content : String) (agent : List ChatMsg → String → String) (now : Nat) :
    StreamResult :=
  let msgs1 := msgs ++ [(⟨"user", content⟩ : ChatMsg)]
  let final := agent (history_of msgs1) content
  ⟨SSEvent.user_message content ::
      ((chunk10 final.data).map (fun c => SSEvent.token (String.mk c)) ++ [SSEvent.done]),
   msgs1 ++ [(⟨"assistant", final⟩ : ChatMsg)],
   ⟨conv.title, conv.message_count + 2, now, now⟩⟩

/-- Result of the non-streaming `send_message` endpoint. -/
structure MessageResult where
  msgs : List ChatMsg
  conv : Conversation
deriving DecidableEq, Repr

/-- The non-streaming `send_message` endpoint: same save / history / agent
steps, then `message_count += 2` and `last_message_at` (but not
`updated_at`), then the title auto-derivation: when the current title is
falsy or equals the placeholder `新对话`, set it to `content[:30]`. -/
def send_message_fn (conv : Conversation) (msgs : List ChatMsg)
    (content : String) (agent : List ChatMsg → String → String) (now : Nat) :
    MessageResult :=
  let msgs1 := msgs ++ [(⟨"user", content⟩ : ChatMsg)]
  let final := agent (history_of msgs1) content
  let conv2 : Conversation := ⟨conv.title, conv.message_count + 2, now, conv.updated_at⟩
  let conv3 : Conversation :=
    if conv2.title = "" ∨ conv2.title = "新对话" then
      ⟨String.mk (content.data.take 30), conv2.message_count, conv2.last_message_at,
        conv2.updated_at⟩
    else conv2
  ⟨msgs1 ++ [(⟨"assistant", final⟩ : ChatMsg)], conv3⟩

/-! ## Concrete instances used by witnesses and counterexamples -/

/-- A cache that already holds a client (id 0) for fingerprint `fp`. -/
def c2w_state : MMState := ⟨[("fp", 0)], 1⟩

/-- An underlying `client.add` that 404s on the stale client 0 and succeeds
on any rebuilt client. -/
def c2w_behavior : Nat → AddParams → Except String Nat :=
  fun c _ => if c == 0 then Except.error "404 collection missing" else Except.ok 42

/-- A sample tool call. -/
def w_toolcall : ToolCall := ⟨"call_1", "search_global_memories", ""⟩

/-- An LLM that requests a tool call on every turn. -/
def w_all_tools_llm : Nat → List AMsg → Except String LLMResponse :=
  fun _ _ => Except.ok ⟨[w_toolcall], ""⟩

/-- An LLM that answers directly with no tool calls. -/
def w_no_tools_llm : Nat → List AMsg → Except String LLMResponse :=
  fun _ _ => Except.ok ⟨[], "你好呀"⟩

/-- An LLM dispatch that raises. -/
def w_fail_llm : Nat → List AMsg → Except String LLMResponse :=
  fun _ _ => Except.error "网络异常"

/-- A tool body that succeeds. -/
def w_ok_body : Nat → ToolCall → Except String String :=
  fun _ _ => Except.ok "全局记忆已添加。"

/-- A local search hit carrying a vector id and no graph relations. -/
def c1_local_raw : RawSearch := ⟨[RawItem.dict (some "m1") "我叫张三"], []⟩

/-- An empty search result. -/
def c1_empty_raw : RawSearch := ⟨[], []⟩

/-- A conversation that already holds 21 messages (the last one being the
just-saved user message). -/
def c6_msgs : List ChatMsg :=
  (List.range 21).map (fun i => (⟨"user", toString i⟩ : ChatMsg))

/-- An agent producing an 11-character final text. -/
def c7w_agent : List ChatMsg → String → String := fun _ _ => "abcdefghijk"

/-- A conversation still carrying the default placeholder title. -/
def c8_conv : Conversation := ⟨"新对话", 4, 0, 0⟩

/-- A stub agent for the title counterexample. -/
def c8_agent : List ChatMsg → String → String := fun _ _ => "好的"

/-! ## Helper lemmas -/

theorem find?_filter_not (l : List (String × Nat)) (h : String) :
    (l.filter (fun p => !(p.1 == h))).find? (fun p => p.1 == h) = none := by
  induction l with
  | nil => rfl
  | cons a t ih =>
    rw [List.filter_cons]
    by_cases ha : a.1 == h
    · simp [ha, ih]
    · rw [if_pos (by simp [ha])]
      rw [List.find?_cons_of_neg _ (by simp [ha])]
      exact ih

theorem lookup_evict (s : MMState) (h : String) :
    lookupClient (evictClient s h) h = none := by
  unfold lookupClient evictClient
  rw [find?_filter_not]
  rfl

theorem get_client_evict (s : MMState) (h : String) :
    get_client (evictClient s h) h
      = (⟨(h, (evictClient s h).nextId) :: (evictClient s h).clients,
          (evictClient s h).nextId + 1⟩, (evictClient s h).nextId) := by
  unfold get_client
  rw [lookup_evict]

theorem lookup_cons_self (l : List (String × Nat)) (h : String) (n m : Nat) :
    lookupClient ⟨(h, n) :: l, m⟩ h = some n := by
  unfold lookupClient
  simp [List.find?]

theorem add_memory_ops (st : MMState) (h : String)
    (ab : Nat → AddParams → Except String Nat) (u : String) (r : Option String)
    (scope : String) (tu : String × Option String)
    (hres : resolve_ids u r scope = Except.ok tu) :
    ∀ p ∈ (add_memory st h ab u r scope).2.1,
      p = ⟨tu.1, if truthyOpt tu.2 then tu.2 else none⟩ := by
  intro p hp
  simp only [add_memory, hres] at hp
  cases hab : ab (get_client st h).2 ⟨tu.1, if truthyOpt tu.2 then tu.2 else none⟩ with
  | ok v => rw [hab] at hp; simp at hp; exact hp
  | error e =>
    rw [hab] at hp
    by_cases hnf : isNotFoundError e
    · simp [hnf] at hp; exact hp
    · simp [hnf] at hp; exact hp

theorem search_memories_ops (st : MMState) (h : String)
    (sb : Nat → SearchParams → Except String (List String)) (u : String)
    (r : Option String) (scope : String) (limit : Nat) (tu : String × Option String)
    (hres : resolve_ids u r scope = Except.ok tu) :
    ∀ p ∈ (search_memories st h sb u r scope limit).2.1,
      p = ⟨tu.1, if truthyOpt tu.2 then tu.2 else none, limit⟩ := by
  intro p hp
  simp only [search_memories, hres] at hp
  cases hsb : sb (get_client st h).2 ⟨tu.1, if truthyOpt tu.2 then tu.2 else none, limit⟩ with
  | ok v => rw [hsb] at hp; simp at hp; exact hp
  | error e => rw [hsb] at hp; simp at hp; exact hp

theorem resolve_global (u : String) (r : Option String) :
    resolve_ids u r "global" = Except.ok (u, none) := rfl

theorem resolve_local (u rid : String) (hrid : rid ≠ "") :
    resolve_ids u (some rid) "local" = Except.ok (u ++ "_conv_" ++ rid, none) := by
  have hie : rid.isEmpty = false := by
    rw [Bool.eq_false_iff]
    intro hh
    exact hrid ((String.isEmpty_iff rid).mp hh)
  unfold resolve_ids
  rw [if_pos rfl, if_pos (by simp [truthyOpt, hie])]
  rfl

theorem ns_disjoint (u rid : String) : u ≠ u ++ "_conv_" ++ rid := by
  intro h
  have hlen := congrArg String.length h
  rw [String.length_append, String.length_append] at hlen
  have h6 : ("_conv_" : String).length = 6 := rfl
  omega

theorem chunk10_flatten (l : List Char) : (chunk10 l).flatten = l := by
  induction l using chunk10.induct with
  | case1 => simp [chunk10]
  | case2 l h ih =>
    rw [chunk10, if_neg h]
    simp [ih, List.take_append_drop]

theorem chunk10_eq_nil_iff (l : List Char) : chunk10 l = [] ↔ l = [] := by
  constructor
  · intro h
    by_contra hne
    rw [chunk10, if_neg hne] at h
    exact List.cons_ne_nil _ _ h
  · intro h; subst h; simp [chunk10]

theorem chunk10_length (l : List Char) : (chunk10 l).length = (l.length + 9) / 10 := by
  induction l using chunk10.induct with
  | case1 => simp [chunk10]
  | case2 l h ih =>
    rw [chunk10, if_neg h]
    have hl : l.length ≠ 0 := fun hz => h (List.length_eq_zero.mp hz)
    simp only [List.length_cons, ih, List.length_drop]
    omega

theorem chunk10_mem_le (l : List Char) (c : List Char) (hc : c ∈ chunk10 l) :
    c.length ≤ 10 := by
  induction l using chunk10.induct with
  | case1 => simp [chunk10] at hc
  | case2 l h ih =>
    rw [chunk10, if_neg h, List.mem_cons] at hc
    rcases hc with hc | hc
    · subst hc
      simp [List.length_take]
    · exact ih hc

theorem chunk10_dropLast (l : List Char) (c : List Char)
    (hc : c ∈ (chunk10 l).dropLast) : c.length = 10 := by
  induction l using chunk10.induct with
  | case1 => simp [chunk10] at hc
  | case2 l h ih =>
    rw [chunk10, if_neg h] at hc
    by_cases hrest : chunk10 (l.drop 10) = []
    · rw [hrest] at hc
      simp at hc
    · rw [List.dropLast_cons_of_ne_nil hrest, List.mem_cons] at hc
      rcases hc with hc | hc
      · subst hc
        have hd : l.drop 10 ≠ [] := fun hz => hrest (by rw [hz]; simp [chunk10])
        have h10 : 10 ≤ l.length := by
          by_contra hlt
          exact hd (List.drop_eq_nil_of_le (by omega))
        simp [List.length_take]
        omega
      · exact ih hc

theorem chat_loop_calls_le (llm : Nat → List AMsg → Except String LLMResponse)
    (tb : Nat → ToolCall → Except String String) :
    ∀ (fuel turn : Nat) (msgs : List AMsg),
      (chat_loop llm tb fuel turn msgs).2 ≤ fuel := by
  intro fuel
  induction fuel with
  | zero => intro turn msgs; exact Nat.le_refl 0
  | succ n ih =>
    intro turn msgs
    simp only [chat_loop]
    cases hr : llm turn msgs with
    | error e => simp
    | ok resp =>
      dsimp only
      cases he : resp.tool_calls.isEmpty with
      | true =>
        rw [if_pos rfl]
        simp
      | false =>
        rw [if_neg (by simp)]
        exact Nat.succ_le_succ (ih _ _)

theorem chat_loop_timeout (llm : Nat → List AMsg → Except String LLMResponse)
    (tb : Nat → ToolCall → Except String String)
    (hllm : ∀ t m, ∃ r, llm t m = Except.ok r ∧ r.tool_calls ≠ []) :
    ∀ (fuel turn : Nat) (msgs : List AMsg),
      chat_loop llm tb fuel turn msgs = ("思考超时。", fuel) := by
  intro fuel
  induction fuel with
  | zero => intro turn msgs; rfl
  | succ n ih =>
    intro turn msgs
    obtain ⟨r, hr, hne⟩ := hllm turn msgs
    have hie : r.tool_calls.isEmpty = false := by
      cases hc : r.tool_calls with
      | nil => exact absurd hc hne
      | cons a t => rfl
    simp only [chat_loop, hr]
    rw [if_neg (by simp [hie])]
    simp only [ih]

/-! ## Claim theorems -/

/-- C1 (counterexample): the claim states that a graph-reset insert happens
only when a fact was physically deleted or a `graph_only` candidate existed.
On a run where the searches return one ordinary vector candidate, no graph
relations, and the reviewer returns no ids, nothing is deleted and no
`graph_only` candidate exists — yet the code performs both graph-reset
inserts, because its trigger is `deleted_contents or (candidates and not
ids_to_delete)`. -/
theorem c1_trigger_counterexample :
    (delete_memory_tool 7 3 "我的名字" c1_local_raw c1_empty_raw []
        (Except.ok "用户的名字未知")).deletedIds = [] ∧
    (∀ c ∈ build_candidates c1_local_raw c1_empty_raw, c.id ≠ some "graph_only") ∧
    (delete_memory_tool 7 3 "我的名字" c1_local_raw c1_empty_raw []
        (Except.ok "用户的名字未知")).graphResetAdds.length = 2 := by
  decide

/-- C1 (amended): after a `delete_memory` run whose candidate gathering found
at least one candidate, with a nonzero originating conversation and a
successful neutralization call, the code inserts exactly one neutralizing
statement into the global namespace and one into the local namespace (both
with metadata type `graph_reset`, source `delete_tool`) if and only if at
least one fact was physically deleted or the reviewer returned an empty id
list; otherwise (and also when no candidate was found) no graph-reset insert
is performed. -/
theorem c1_graph_reset_amended (uid cid : Nat) (q : String) (lr gr : RawSearch)
    (ids : List String) (stmt : String) (hcid : cid ≠ 0) :
    (build_candidates lr gr ≠ [] →
      ((delete_phase (build_candidates lr gr) ids).2 ≠ [] ∨ ids = []) →
      (delete_memory_tool uid cid q lr gr ids (Except.ok stmt)).graphResetAdds
        = [⟨stmt, toString uid, none, "global", graph_reset_meta⟩,
           ⟨stmt, toString uid, some (toString cid), "local", graph_reset_meta⟩]) ∧
    (build_candidates lr gr ≠ [] →
      (delete_phase (build_candidates lr gr) ids).2 = [] → ids ≠ [] →
      (delete_memory_tool uid cid q lr gr ids (Except.ok stmt)).graphResetAdds = []) ∧
    (build_candidates lr gr = [] →
      (delete_memory_tool uid cid q lr gr ids (Except.ok stmt)).graphResetAdds = []) := by
  refine ⟨?_, ?_, ?_⟩
  · intro hne htrig
    have hce : (build_candidates lr gr).isEmpty = false := by
      cases hc : build_candidates lr gr with
      | nil => exact absurd hc hne
      | cons a t => rfl
    simp only [delete_memory_tool, hce, Bool.false_eq_true, if_false]
    rcases htrig with hdel | hids
    · have hd : (delete_phase (build_candidates lr gr) ids).2.isEmpty = false := by
        cases hc : (delete_phase (build_candidates lr gr) ids).2 with
        | nil => exact absurd hc hdel
        | cons a t => rfl
      simp [hd, hcid]
    · subst hids
      simp [hce, hcid]
  · intro hne hdel hids
    have hce : (build_candidates lr gr).isEmpty = false := by
      cases hc : build_candidates lr gr with
      | nil => exact absurd hc hne
      | cons a t => rfl
    have hid : ids.isEmpty = false := by
      cases hc : ids with
      | nil => exact absurd hc hids
      | cons a t => rfl
    simp [delete_memory_tool, hce, hid, hdel]
  · intro hnil
    simp [delete_memory_tool, hnil]

/-- C1 (witness): a concrete run that physically deletes one fact produces
exactly the two graph-reset inserts. -/
theorem c1_graph_reset_witness :
    (delete_memory_tool 7 3 "我的名字" c1_local_raw c1_empty_raw ["m1"]
        (Except.ok "用户的名字未知")).graphResetAdds
      = [⟨"用户的名字未知", toString 7, none, "global", graph_reset_meta⟩,
         ⟨"用户的名字未知", toString 7, some (toString 3), "local", graph_reset_meta⟩] :=
  (c1_graph_reset_amended 7 3 "我的名字" c1_local_raw c1_empty_raw ["m1"]
      "用户的名字未知" (by decide)).1 (by decide) (Or.inl (by decide))

/-- C2: in `MemoryManager.add_memory`, when the underlying `client.add`
raises an error carrying the `404` / `Not found` signature, the cached
client for the current fingerprint is evicted, a fresh client is built (and
ends up cached for the fingerprint), and the add is retried exactly once,
its result or error returned as-is; any other error propagates unchanged
with the cache untouched. -/
theorem c2_add_retry_on_not_found (st : MMState) (h : String)
    (ab : Nat → AddParams → Except String Nat) (u : String) (r : Option String)
    (scope : String) (tu : String × Option String) (e : String)
    (hres : resolve_ids u r scope = Except.ok tu) :
    (ab (get_client st h).2 ⟨tu.1, if truthyOpt tu.2 then tu.2 else none⟩
        = Except.error e →
      isNotFoundError e = true →
      add_memory st h ab u r scope
        = ((get_client (evictClient (get_client st h).1 h) h).1,
           [⟨tu.1, if truthyOpt tu.2 then tu.2 else none⟩,
            ⟨tu.1, if truthyOpt tu.2 then tu.2 else none⟩],
           ab (get_client (evictClient (get_client st h).1 h) h).2
             ⟨tu.1, if truthyOpt tu.2 then tu.2 else none⟩)
      ∧ lookupClient (add_memory st h ab u r scope).1 h
          = some (evictClient (get_client st h).1 h).nextId) ∧
    (ab (get_client st h).2 ⟨tu.1, if truthyOpt tu.2 then tu.2 else none⟩
        = Except.error e →
      isNotFoundError e = false →
      add_memory st h ab u r scope
        = ((get_client st h).1, [⟨tu.1, if truthyOpt tu.2 then tu.2 else none⟩],
           Except.error e)) := by
  constructor
  · intro hab hnf
    have heq : add_memory st h ab u r scope
        = ((get_client (evictClient (get_client st h).1 h) h).1,
           [⟨tu.1, if truthyOpt tu.2 then tu.2 else none⟩,
            ⟨tu.1, if truthyOpt tu.2 then tu.2 else none⟩],
           ab (get_client (evictClient (get_client st h).1 h) h).2
             ⟨tu.1, if truthyOpt tu.2 then tu.2 else none⟩) := by
      simp only [add_memory, hres, hab, hnf, if_true]
    refine ⟨heq, ?_⟩
    rw [heq, get_client_evict]
    exact lookup_cons_self _ _ _ _
  · intro hab hnf
    simp only [add_memory, hres, hab, hnf, Bool.false_eq_true, if_false]

/-- C2 (witness): with a cached client that 404s on add and a rebuild that
succeeds, `add_memory` issues the two store calls and returns the retry's
success; the cache holds the freshly built client for the fingerprint. -/
theorem c2_add_retry_witness :
    add_memory c2w_state "fp" c2w_behavior "7" none "global"
      = (⟨[("fp", 1)], 2⟩, [⟨"7", none⟩, ⟨"7", none⟩], Except.ok 42) ∧
    lookupClient (add_memory c2w_state "fp" c2w_behavior "7" none "global").1 "fp"
      = some 1 := by
  have h := (c2_add_retry_on_not_found c2w_state "fp" c2w_behavior "7" none "global"
      ("7", none) "404 collection missing" rfl).1 rfl (by decide)
  exact ⟨h.1, h.2⟩

/-- C3: both `add_memory` and `search_memories` route a `global`-scope call
to namespace `user_id` and a `local`-scope call to namespace
`user_id ++ "_conv_" ++ run_id`, never setting the `run` parameter on the
store call; the two namespaces are distinct strings for any pair. -/
theorem c3_scope_routing (st : MMState) (h u rid : String) (r : Option String)
    (ab : Nat → AddParams → Except String Nat)
    (sb : Nat → SearchParams → Except String (List String)) (limit : Nat)
    (hrid : rid ≠ "") :
    (∀ p ∈ (add_memory st h ab u r "global").2.1, p = ⟨u, none⟩) ∧
    (∀ p ∈ (add_memory st h ab u (some rid) "local").2.1,
      p = ⟨u ++ "_conv_" ++ rid, none⟩) ∧
    (∀ p ∈ (search_memories st h sb u r "global" limit).2.1,
      p = ⟨u, none, limit⟩) ∧
    (∀ p ∈ (search_memories st h sb u (some rid) "local" limit).2.1,
      p = ⟨u ++ "_conv_" ++ rid, none, limit⟩) ∧
    u ≠ u ++ "_conv_" ++ rid := by
  refine ⟨?_, ?_, ?_, ?_, ns_disjoint u rid⟩
  · exact add_memory_ops st h ab u r "global" (u, none) (resolve_global u r)
  · exact add_memory_ops st h ab u (some rid) "local" (u ++ "_conv_" ++ rid, none)
      (resolve_local u rid hrid)
  · exact search_memories_ops st h sb u r "global" limit (u, none) (resolve_global u r)
  · exact search_memories_ops st h sb u (some rid) "local" limit
      (u ++ "_conv_" ++ rid, none) (resolve_local u rid hrid)

/-- C3 (witness): concrete routing for user `7` and conversation `3`. -/
theorem c3_scope_routing_witness :
    (∀ p ∈ (add_memory c2w_state "fp" c2w_behavior "7" (some "3") "local").2.1,
      p = ⟨"7" ++ "_conv_" ++ "3", none⟩) ∧
    ("7" : String) ≠ "7" ++ "_conv_" ++ "3" := by
  have h := c3_scope_routing c2w_state "fp" "7" "3" (some "3") c2w_behavior
      (fun _ _ => Except.ok []) 5 (by decide)
  exact ⟨h.2.1, h.2.2.2.2⟩

/-- C4: the `chat_agent` loop dispatches at most 5 LLM calls; a turn whose
response has no tool calls returns that response's content immediately
(with that single LLM call); and when every turn returns tool calls the
run ends with the timeout string `思考超时。` after exactly 5 LLM calls,
never a sixth. -/
theorem c4_loop_cap :
    (∀ (hasClient : Bool) (llm : Nat → List AMsg → Except String LLMResponse)
        (tb : Nat → ToolCall → Except String String) (history : List AMsg)
        (um : String), (chat_agent hasClient llm tb history um).2 ≤ 5) ∧
    (∀ (llm : Nat → List AMsg → Except String LLMResponse)
        (tb : Nat → ToolCall → Except String String) (fuel turn : Nat)
        (msgs : List AMsg) (r : LLMResponse),
      llm turn msgs = Except.ok r → r.tool_calls = [] →
      chat_loop llm tb (fuel + 1) turn msgs = (r.content, 1)) ∧
    (∀ (llm : Nat → List AMsg → Except String LLMResponse)
        (tb : Nat → ToolCall → Except String String) (history : List AMsg)
        (um : String),
      (∀ t m, ∃ resp, llm t m = Except.ok resp ∧ resp.tool_calls ≠ []) →
      chat_agent true llm tb history um = ("思考超时。", 5)) := by
  refine ⟨?_, ?_, ?_⟩
  · intro hasClient llm tb history um
    cases hasClient with
    | true => exact chat_loop_calls_le llm tb 5 0 _
    | false => exact Nat.zero_le 5
  · intro llm tb fuel turn msgs r hr he
    simp only [chat_loop, hr]
    rw [if_pos (by simp [he])]
  · intro llm tb history um hllm
    exact chat_loop_timeout llm tb hllm 5 0 _

/-- C4 (witness): an LLM that always requests tools makes the run time out
after exactly 5 calls, and a no-tools response returns its content at once. -/
theorem c4_loop_cap_witness :
    (chat_agent true w_all_tools_llm w_ok_body [] "你好").2 ≤ 5 ∧
    chat_loop w_no_tools_llm w_ok_body 5 0 [] = ("你好呀", 1) ∧
    chat_agent true w_all_tools_llm w_ok_body [] "你好" = ("思考超时。", 5) := by
  refine ⟨c4_loop_cap.1 true w_all_tools_llm w_ok_body [] "你好", ?_, ?_⟩
  · exact c4_loop_cap.2.1 w_no_tools_llm w_ok_body 4 0 [] ⟨[], "你好呀"⟩ rfl rfl
  · exact c4_loop_cap.2.2 w_all_tools_llm w_ok_body [] "你好"
      (fun t m => ⟨⟨[w_toolcall], ""⟩, rfl, by decide⟩)

/-- C5: after a tool-calling turn, the messages list is the previous list,
then the assistant message, then a contiguous block of exactly one tool
message per tool call, whose `tool_call_id`s equal the ids of the response's
tool calls in the same order (the tool results are a pure function of the
tool call here, so the thread pool's completion order cannot influence the
append order, which follows the submission order as in the source). -/
theorem c5_tool_result_order (tb : Nat → ToolCall → Except String String)
    (turn : Nat) (resp : LLMResponse) (messages : List AMsg) :
    agent_turn tb turn resp messages
      = messages ++ assistant_of resp :: tool_msgs_of tb turn resp ∧
    (agent_turn tb turn resp messages).drop (messages.length + 1)
      = tool_msgs_of tb turn resp ∧
    ((agent_turn tb turn resp messages).drop (messages.length + 1)).map
        (fun m => m.tool_call_id) = resp.tool_calls.map (fun tc => some tc.id) ∧
    ((agent_turn tb turn resp messages).drop (messages.length + 1)).length
      = resp.tool_calls.length ∧
    (∀ m ∈ (agent_turn tb turn resp messages).drop (messages.length + 1),
      m.role = "tool") := by
  have hdrop : (agent_turn tb turn resp messages).drop (messages.length + 1)
      = tool_msgs_of tb turn resp := by
    show (messages ++ assistant_of resp :: tool_msgs_of tb turn resp).drop
        (messages.length + 1) = tool_msgs_of tb turn resp
    induction messages with
    | nil => rfl
    | cons x xs ih => simpa using ih
  refine ⟨rfl, hdrop, ?_, ?_, ?_⟩
  · rw [hdrop]
    simp [tool_msgs_of]
  · rw [hdrop]
    simp [tool_msgs_of]
  · intro m hm
    rw [hdrop] at hm
    simp only [tool_msgs_of, List.mem_map] at hm
    obtain ⟨tc, _, rfl⟩ := hm
    rfl

/-- C6 (code bug): with 21 persisted messages (the 21st being the just-saved
user message), the code's history — `ORDER BY created_at ASC LIMIT 20` then
`[:-1]` — yields the chronologically first 19 messages, dropping message 19
instead of the just-saved message 20, and differs from the spec's "last 20
messages excluding the just-saved one". -/
theorem c6_history_bug_eval :
    history_of c6_msgs
      = (List.range 19).map (fun i => (⟨"user", toString i⟩ : ChatMsg)) ∧
    history_of c6_msgs ≠ spec_last20_history c6_msgs ∧
    (⟨"user", toString 19⟩ : ChatMsg) ∉ history_of c6_msgs ∧
    (⟨"user", toString 19⟩ : ChatMsg) ∈ spec_last20_history c6_msgs := by
  decide

/-- C7: a successful streaming turn emits exactly one `user_message` event,
then one `token` event per 10-character chunk — `⌈L/10⌉` of them, each of
length 10 except possibly the last, concatenating to the final text — then
exactly one `done` event, and persists the assistant message with the full
final text. -/
theorem c7_stream_events (conv : Conversation) (msgs : List ChatMsg)
    (content : String) (agent : List ChatMsg → String → String) (now : Nat)
    (final : String)
    (hfinal : agent (history_of (msgs ++ [(⟨"user", content⟩ : ChatMsg)])) content
      = final)
    (hL : 0 < final.length) :
    (send_message_stream conv msgs content agent now).events
      = SSEvent.user_message content ::
          ((chunk10 final.data).map (fun c => SSEvent.token (String.mk c))
            ++ [SSEvent.done]) ∧
    (chunk10 final.data).length = (final.length + 9) / 10 ∧
    (chunk10 final.data).flatten = final.data ∧
    (∀ c ∈ (chunk10 final.data).dropLast, c.length = 10) ∧
    (∀ c ∈ chunk10 final.data, c.length ≤ 10) ∧
    (send_message_stream conv msgs content agent now).msgs
      = msgs ++ [(⟨"user", content⟩ : ChatMsg), (⟨"assistant", final⟩ : ChatMsg)] := by
  refine ⟨?_, ?_, chunk10_flatten final.data, chunk10_dropLast final.data,
      chunk10_mem_le final.data, ?_⟩
  · simp only [send_message_stream, hfinal]
  · rw [chunk10_length]
    rfl
  · simp only [send_message_stream, hfinal, List.append_assoc]
    rfl

/-- C7 (witness): an 11-character final text produces 2 token chunks. -/
theorem c7_stream_events_witness :
    0 < ("abcdefghijk" : String).length ∧
    (send_message_stream ⟨"t", 0, 0, 0⟩ [] "hi" c7w_agent 1).events
      = SSEvent.user_message "hi" ::
          ((chunk10 ("abcdefghijk" : String).data).map
              (fun c => SSEvent.token (String.mk c)) ++ [SSEvent.done]) ∧
    (chunk10 ("abcdefghijk" : String).data).length
      = (("abcdefghijk" : String).length + 9) / 10 := by
  have h := c7_stream_events ⟨"t", 0, 0, 0⟩ [] "hi" c7w_agent 1 "abcdefghijk"
      rfl (by decide)
  exact ⟨by decide, h.1, h.2.1⟩

/-- C8 (counterexample): a successfully completed streaming turn on a
conversation whose title is the default placeholder leaves the title
unchanged, contradicting the claim that the title is then set to the first
30 characters of the user message (the title derivation exists only in the
non-streaming endpoint). -/
theorem c8_title_counterexample :
    (send_message_stream c8_conv [] "你好，请记住我的名字" c8_agent 9).conv.title
      = "新对话" ∧
    "新对话" ≠ String.mk ("你好，请记住我的名字".data.take 30) := by
  decide

/-- C8 (amended): a successfully completed streaming turn updates the
conversation with `message_count + 2` and refreshes `last_message_at` and
`updated_at`, but never modifies the title; the title auto-derivation
(first 30 characters of the user message when the title is empty or the
default placeholder) is performed only by the non-streaming `send_message`
endpoint. -/
theorem c8_stream_update_amended (conv : Conversation) (msgs : List ChatMsg)
    (content : String) (agent : List ChatMsg → String → String) (now : Nat) :
    (send_message_stream conv msgs content agent now).conv
      = ⟨conv.title, conv.message_count + 2, now, now⟩ ∧
    (send_message_fn conv msgs content agent now).conv.title
      = (if conv.title = "" ∨ conv.title = "新对话"
          then String.mk (content.data.take 30) else conv.title) := by
  constructor
  · rfl
  · by_cases hc : conv.title = "" ∨ conv.title = "新对话"
    · simp [send_message_fn, hc]
    · simp [send_message_fn, hc]

/-- C9: an exception raised by the LLM dispatch aborts the loop and yields
`处理错误: ` followed by the message after that single call; an exception
inside one tool execution is converted by the tool executor's catch-all into
the string `工具执行出错: …` handed to the LLM, and the loop proceeds to its
recursive step for any tool-body behaviour; the failure replies are never
empty. -/
theorem c9_error_handling :
    (∀ (llm : Nat → List AMsg → Except String LLMResponse)
        (tb : Nat → ToolCall → Except String String) (fuel turn : Nat)
        (msgs : List AMsg) (e : String),
      llm turn msgs = Except.error e →
      chat_loop llm tb (fuel + 1) turn msgs = ("处理错误: " ++ e, 1)) ∧
    (∀ e, execute_tool_wrap (Except.error e) = "工具执行出错: " ++ e) ∧
    (∀ (llm : Nat → List AMsg → Except String LLMResponse)
        (tb : Nat → ToolCall → Except String String) (fuel turn : Nat)
        (msgs : List AMsg) (resp : LLMResponse),
      llm turn msgs = Except.ok resp → resp.tool_calls ≠ [] →
      chat_loop llm tb (fuel + 1) turn msgs
        = ((chat_loop llm tb fuel (turn + 1) (agent_turn tb turn resp msgs)).1,
           (chat_loop llm tb fuel (turn + 1) (agent_turn tb turn resp msgs)).2 + 1)) ∧
    (∀ e, ("处理错误: " ++ e) ≠ "") ∧
    ("思考超时。" : String) ≠ "" := by
  refine ⟨?_, fun e => rfl, ?_, ?_, by decide⟩
  · intro llm tb fuel turn msgs e he
    simp only [chat_loop, he]
  · intro llm tb fuel turn msgs resp hr hne
    have hie : resp.tool_calls.isEmpty = false := by
      cases hc : resp.tool_calls with
      | nil => exact absurd hc hne
      | cons a t => rfl
    simp only [chat_loop, hr]
    rw [if_neg (by simp [hie])]
  · intro e hcontra
    have hlen := congrArg String.length hcontra
    rw [String.length_append] at hlen
    have h6 : ("处理错误: " : String).length = 6 := rfl
    have h0 : ("" : String).length = 0 := rfl
    omega

/-- C9 (witness): a failing LLM dispatch on the first turn returns the
error reply after one call, and a failing tool body becomes an error
string. -/
theorem c9_error_handling_witness :
    chat_loop w_fail_llm w_ok_body 5 0 [] = ("处理错误: 网络异常", 1) ∧
    execute_tool_wrap (Except.error "超时") = "工具执行出错: 超时" := by
  refine ⟨?_, (c9_error_handling.2.1 "超时").trans (by decide)⟩
  exact (c9_error_handling.1 w_fail_llm w_ok_body 4 0 [] "网络异常" rfl).trans
    (by decide)

/-- C10: calling `add_memory` or `search_memories` with `local` scope and no
`run_id` raises `ValueError("Local memory requires a valid run_id")` before
any add or search is issued to the store (the issued-operations log is
empty, so the store contents are untouched). -/
theorem c10_local_requires_run_id (st : MMState) (h u : String)
    (ab : Nat → AddParams → Except String Nat)
    (sb : Nat → SearchParams → Except String (List String)) (limit : Nat) :
    (add_memory st h ab u none "local").2
      = ([], Except.error "Local memory requires a valid run_id") ∧
    (search_memories st h sb u none "local" limit).2
      = ([], Except.error "Local memory requires a valid run_id") := by
  exact ⟨rfl, rfl⟩

end LMQA
